import Mathlib

/-!
Verification development for [open]lipc, a reverse-engineered header of the
Kindle LIPC IPC library.  The repository ships the header `openlipc.h`
(declarations and documented contracts) together with test programs; the
library implementation itself is proprietary and absent from the sources.
Accordingly, enumerations and callback behaviours that appear literally in
the header or in the test programs are translated from those files, while
the library operations themselves are modelled from the specification
(each such definition carries a doc comment starting `Modelled from the
spec:`).
-/

namespace Openlipc

/-- Status codes, translated from the `LIPCcode` enum in `openlipc.h`. -/
inductive LIPCcode where
  | LIPC_OK
  | LIPC_ERROR_UNKNOWN
  | LIPC_ERROR_INTERNAL
  | LIPC_ERROR_NO_SUCH_SOURCE
  | LIPC_ERROR_OPERATION_NOT_SUPPORTED
  | LIPC_ERROR_OUT_OF_MEMORY
  | LIPC_ERROR_SUBSCRIPTION_FAILED
  | LIPC_ERROR_NO_SUCH_PARAM
  | LIPC_ERROR_NO_SUCH_PROPERTY
  | LIPC_ERROR_ACCESS_NOT_ALLOWED
  | LIPC_ERROR_BUFFER_TOO_SMALL
  | LIPC_ERROR_INVALID_HANDLE
  | LIPC_ERROR_INVALID_ARG
  | LIPC_ERROR_OPERATION_NOT_ALLOWED
  | LIPC_ERROR_PARAMS_SIZE_EXCEEDED
  | LIPC_ERROR_TIMED_OUT
  | LIPC_ERROR_SERVICE_NAME_TOO_LONG
  | LIPC_ERROR_DUPLICATE_SERVICE_NAME
  | LIPC_ERROR_INIT_DBUS
  | LIPC_PROP_ERROR_INVALID_STATE
  | LIPC_PROP_ERROR_NOT_INITIALIZED
  | LIPC_PROP_ERROR_INTERNAL
  deriving DecidableEq, Repr

/-- Numeric values of the status codes as assigned in `openlipc.h`. -/
def LIPCcode.toNat : LIPCcode → Nat
  | .LIPC_OK => 0
  | .LIPC_ERROR_UNKNOWN => 1
  | .LIPC_ERROR_INTERNAL => 2
  | .LIPC_ERROR_NO_SUCH_SOURCE => 3
  | .LIPC_ERROR_OPERATION_NOT_SUPPORTED => 4
  | .LIPC_ERROR_OUT_OF_MEMORY => 5
  | .LIPC_ERROR_SUBSCRIPTION_FAILED => 6
  | .LIPC_ERROR_NO_SUCH_PARAM => 7
  | .LIPC_ERROR_NO_SUCH_PROPERTY => 8
  | .LIPC_ERROR_ACCESS_NOT_ALLOWED => 9
  | .LIPC_ERROR_BUFFER_TOO_SMALL => 10
  | .LIPC_ERROR_INVALID_HANDLE => 11
  | .LIPC_ERROR_INVALID_ARG => 12
  | .LIPC_ERROR_OPERATION_NOT_ALLOWED => 13
  | .LIPC_ERROR_PARAMS_SIZE_EXCEEDED => 14
  | .LIPC_ERROR_TIMED_OUT => 15
  | .LIPC_ERROR_SERVICE_NAME_TOO_LONG => 16
  | .LIPC_ERROR_DUPLICATE_SERVICE_NAME => 17
  | .LIPC_ERROR_INIT_DBUS => 18
  | .LIPC_PROP_ERROR_INVALID_STATE => 0x100
  | .LIPC_PROP_ERROR_NOT_INITIALIZED => 0x101
  | .LIPC_PROP_ERROR_INTERNAL => 0x102

/-- Modelled from the spec: the connection handle (`LIPC` is an opaque
`typedef void` in the header; its state, the optionally registered service
identity, is modelled here since the implementation is not in the sources). -/
structure LIPC where
  serviceName : Option String
  deriving DecidableEq, Repr

/-- Modelled from the spec: `LipcOpenNoName` initializes the library without
registering a service name (successful-open result; transport failures are an
excluded external collaborator). -/
def LipcOpenNoName : LIPC := ⟨none⟩

/-- Modelled from the spec: `LipcOpen` initializes the library and registers
the given service name (successful-open result). -/
def LipcOpen (service : String) : LIPC := ⟨some service⟩

/-- Modelled from the spec: `LipcOpenEx` behaves as `LipcOpen` and
additionally stores the status code into its out-parameter; on success the
stored code is `LIPC_OK`. -/
def LipcOpenEx (service : String) : LIPC × LIPCcode := (⟨some service⟩, .LIPC_OK)

/-- Modelled from the spec: `LipcGetServiceName` returns the service name
registered during opening, or NULL (here `none`) if the handle was obtained
via `LipcOpenNoName`. -/
def LipcGetServiceName (lipc : LIPC) : Option String := lipc.serviceName

/-- Data types storable in a hash-array value, translated from the
`LIPCHasharrayType` enum in `openlipc.h`. -/
inductive LIPCHasharrayType where
  | LIPC_HASHARRAY_INT
  | LIPC_HASHARRAY_STRING
  | LIPC_HASHARRAY_BLOB
  deriving DecidableEq, Repr

/-- A single byte of a blob value. -/
abbrev Byte := Fin 256

/-- The bit patterns of a C `int` (32-bit fixed width). -/
abbrev Word32 := Fin 4294967296

/-- Modelled from the spec: a hash-array value, a tagged union of exactly
three kinds - fixed-width integer (stored as its 32-bit pattern), owned text,
and owned byte blob with explicit length. -/
inductive HValue where
  | hInt (v : Word32)
  | hStr (s : String)
  | hBlob (b : List Byte)
  deriving DecidableEq, Repr

/-- One hash map of a hash-array: an insertion-ordered association list with
unique keys. -/
abbrev HMap := List (String × HValue)

/-- Modelled from the spec: the hash-array data structure (`LIPCha` is an
opaque `typedef void` in the header) - an opaque identity/metadata field and
an ordered, growable sequence of key/typed-value maps. -/
structure LIPCha where
  ident : Nat
  maps : List HMap
  deriving DecidableEq, Repr

/-- Wrap an integer to its 32-bit two's-complement bit pattern, as the C
calling convention does for an `int` argument. -/
def wrap32 (v : Int) : Word32 := ⟨(v % 4294967296).toNat, by omega⟩

/-- Read a 32-bit pattern back as a signed C `int`. -/
def toSigned32 (n : Word32) : Int :=
  if n.val < 2147483648 then (n.val : Int) else (n.val : Int) - 4294967296

/-- Look a key up in one hash map (first binding wins; keys are unique). -/
def hmapFind (m : HMap) (key : String) : Option HValue :=
  match m with
  | [] => none
  | (k, v) :: rest => if k = key then some v else hmapFind rest key

/-- Insert or overwrite a binding, keeping insertion order: an existing key
keeps its position (last write wins on the value), a new key is appended. -/
def hmapPut (m : HMap) (key : String) (v : HValue) : HMap :=
  match m with
  | [] => [(key, v)]
  | (k, w) :: rest =>
      if k = key then (k, v) :: rest else (k, w) :: hmapPut rest key v

/-- Modelled from the spec: `LipcHasharrayNew` - an empty array with zero
maps (the opaque identity field starts at a default). -/
def LipcHasharrayNew : LIPCha := ⟨0, []⟩

/-- Modelled from the spec: `LipcHasharrayGetHashCount` - the number of
elements in the array component. -/
def LipcHasharrayGetHashCount (ha : LIPCha) : Nat := ha.maps.length

/-- Modelled from the spec: `LipcHasharrayAddHash` appends an empty map and
stores its index (the length before the append) into the out-parameter.
Result: (status, index out-parameter, updated array). -/
def LipcHasharrayAddHash (ha : LIPCha) : LIPCcode × Nat × LIPCha :=
  (.LIPC_OK, ha.maps.length, ⟨ha.ident, ha.maps ++ [[]]⟩)

/-- Modelled from the spec: `LipcHasharrayKeys` two-call protocol - the
count out-parameter always receives the number of keys at the index, and the
caller-provided buffer (able to store up to the incoming count) receives up
to that many keys.  Result: (status, count out-parameter, keys written). -/
def LipcHasharrayKeys (ha : LIPCha) (index : Nat) (count : Nat) :
    LIPCcode × Nat × List String :=
  match ha.maps[index]? with
  | none => (.LIPC_ERROR_NO_SUCH_SOURCE, count, [])
  | some m => (.LIPC_OK, m.length, (m.map Prod.fst).take count)

/-- The type tag reported for a stored value. -/
def typeOfHValue : HValue → LIPCHasharrayType
  | .hInt _ => .LIPC_HASHARRAY_INT
  | .hStr _ => .LIPC_HASHARRAY_STRING
  | .hBlob _ => .LIPC_HASHARRAY_BLOB

/-- Modelled from the spec: the size reported for a stored value - a text
value reports content length plus one (the trailing terminator slot,
`sizeof`-style), an integer reports the fixed `sizeof(int)` width, a blob
reports its explicit byte length with no terminator. -/
def sizeOfHValue : HValue → Nat
  | .hInt _ => 4
  | .hStr s => s.length + 1
  | .hBlob b => b.length

/-- Modelled from the spec: `LipcHasharrayCheckKey` - reports the type and
size of the value under a key; `NoSuchParam` if the key is absent at the
index, a `NoSuchSource`-class error if the index is out of range.  Result:
(status, type/size out-parameters when written). -/
def LipcHasharrayCheckKey (ha : LIPCha) (index : Nat) (key : String) :
    LIPCcode × Option (LIPCHasharrayType × Nat) :=
  match ha.maps[index]? with
  | none => (.LIPC_ERROR_NO_SUCH_SOURCE, none)
  | some m =>
      match hmapFind m key with
      | none => (.LIPC_ERROR_NO_SUCH_PARAM, none)
      | some v => (.LIPC_OK, some (typeOfHValue v, sizeOfHValue v))

/-- Modelled from the spec: common put path - overwrite-or-insert the
binding in the map at the index (kind may change); `NoSuchSource`-class
error if the index is out of range. -/
def hasharrayPut (ha : LIPCha) (index : Nat) (key : String) (v : HValue) :
    LIPCcode × LIPCha :=
  match ha.maps[index]? with
  | none => (.LIPC_ERROR_NO_SUCH_SOURCE, ha)
  | some m => (.LIPC_OK, ⟨ha.ident, ha.maps.set index (hmapPut m key v)⟩)

/-- Modelled from the spec: `LipcHasharrayPutInt`. -/
def LipcHasharrayPutInt (ha : LIPCha) (index : Nat) (key : String) (v : Int) :
    LIPCcode × LIPCha :=
  hasharrayPut ha index key (.hInt (wrap32 v))

/-- Modelled from the spec: `LipcHasharrayPutString`. -/
def LipcHasharrayPutString (ha : LIPCha) (index : Nat) (key : String)
    (v : String) : LIPCcode × LIPCha :=
  hasharrayPut ha index key (.hStr v)

/-- Modelled from the spec: `LipcHasharrayPutBlob`. -/
def LipcHasharrayPutBlob (ha : LIPCha) (index : Nat) (key : String)
    (b : List Byte) : LIPCcode × LIPCha :=
  hasharrayPut ha index key (.hBlob b)

/-- Modelled from the spec: `LipcHasharrayGetInt` - typed accessor; wrong
kind fails with a type-mismatch error distinct from not-found.  Result:
(status, value out-parameter when written). -/
def LipcHasharrayGetInt (ha : LIPCha) (index : Nat) (key : String) :
    LIPCcode × Option Int :=
  match ha.maps[index]? with
  | none => (.LIPC_ERROR_NO_SUCH_SOURCE, none)
  | some m =>
      match hmapFind m key with
      | none => (.LIPC_ERROR_NO_SUCH_PARAM, none)
      | some (.hInt v) => (.LIPC_OK, some (toSigned32 v))
      | some _ => (.LIPC_ERROR_INVALID_ARG, none)

/-- Modelled from the spec: `LipcHasharrayGetString` - typed accessor
returning an owned copy of the stored text. -/
def LipcHasharrayGetString (ha : LIPCha) (index : Nat) (key : String) :
    LIPCcode × Option String :=
  match ha.maps[index]? with
  | none => (.LIPC_ERROR_NO_SUCH_SOURCE, none)
  | some m =>
      match hmapFind m key with
      | none => (.LIPC_ERROR_NO_SUCH_PARAM, none)
      | some (.hStr s) => (.LIPC_OK, some s)
      | some _ => (.LIPC_ERROR_INVALID_ARG, none)

/-- Modelled from the spec: `LipcHasharrayGetBlob` - typed accessor
returning the owned bytes together with their explicit size. -/
def LipcHasharrayGetBlob (ha : LIPCha) (index : Nat) (key : String) :
    LIPCcode × Option (List Byte × Nat) :=
  match ha.maps[index]? with
  | none => (.LIPC_ERROR_NO_SUCH_SOURCE, none)
  | some m =>
      match hmapFind m key with
      | none => (.LIPC_ERROR_NO_SUCH_PARAM, none)
      | some (.hBlob b) => (.LIPC_OK, some (b, b.length))
      | some _ => (.LIPC_ERROR_INVALID_ARG, none)

/-- Concatenate the encodings of the elements of a list. -/
def encodeList (f : α → List Nat) : List α → List Nat
  | [] => []
  | x :: xs => f x ++ encodeList f xs

/-- Modelled from the spec: length-prefixed encoding of a text field. -/
def encodeText (s : String) : List Nat :=
  s.length :: s.data.map Char.toNat

/-- Modelled from the spec: value payload with its type tag - a fixed-width
word for an integer, length-prefixed text, explicit length plus bytes for a
blob. -/
def encodeHValue : HValue → List Nat
  | .hInt v => 0 :: [v.val]
  | .hStr s => 1 :: encodeText s
  | .hBlob b => 2 :: b.length :: b.map Fin.val

/-- Modelled from the spec: one entry is its key (length-prefixed text)
followed by the type tag and value payload. -/
def encodeEntry (e : String × HValue) : List Nat :=
  encodeText e.1 ++ encodeHValue e.2

/-- Modelled from the spec: one map is its entry count followed by its
entries. -/
def encodeHMap (m : HMap) : List Nat :=
  m.length :: encodeList encodeEntry m

/-- Modelled from the spec: `LipcHasharraySave` - the persisted stream is
the identity/metadata field, the map count, then the maps. -/
def LipcHasharraySave (ha : LIPCha) : List Nat :=
  ha.ident :: ha.maps.length :: encodeList encodeHMap ha.maps

/-- Take exactly `n` elements off the stream, failing if it is too short. -/
def readN : Nat → List Nat → Option (List Nat × List Nat)
  | 0, s => some ([], s)
  | _ + 1, [] => none
  | n + 1, x :: s =>
      match readN n s with
      | none => none
      | some (xs, rest) => some (x :: xs, rest)

/-- Decode a length-prefixed text field. -/
def decodeText (s : List Nat) : Option (String × List Nat) :=
  match s with
  | [] => none
  | len :: s1 =>
      match readN len s1 with
      | none => none
      | some (ns, rest) => some (String.mk (ns.map Char.ofNat), rest)

/-- Check that every stream element is a byte and convert. -/
def natsToBytes : List Nat → Option (List Byte)
  | [] => some []
  | n :: ns =>
      if h : n < 256 then
        match natsToBytes ns with
        | none => none
        | some bs => some (⟨n, h⟩ :: bs)
      else none

/-- Decode one tagged value payload. -/
def decodeHValue (s : List Nat) : Option (HValue × List Nat) :=
  match s with
  | 0 :: v :: rest =>
      if h : v < 4294967296 then some (.hInt ⟨v, h⟩, rest) else none
  | 1 :: s1 =>
      match decodeText s1 with
      | none => none
      | some (t, rest) => some (.hStr t, rest)
  | 2 :: len :: s1 =>
      match readN len s1 with
      | none => none
      | some (ns, rest) =>
          match natsToBytes ns with
          | none => none
          | some bs => some (.hBlob bs, rest)
  | _ => none

/-- Decode one entry: key, then tagged value. -/
def decodeEntry (s : List Nat) : Option ((String × HValue) × List Nat) :=
  match decodeText s with
  | none => none
  | some (k, s1) =>
      match decodeHValue s1 with
      | none => none
      | some (v, s2) => some ((k, v), s2)

/-- Decode exactly `n` items with the given item decoder. -/
def decodeListN (f : List Nat → Option (α × List Nat)) :
    Nat → List Nat → Option (List α × List Nat)
  | 0, s => some ([], s)
  | n + 1, s =>
      match f s with
      | none => none
      | some (x, s1) =>
          match decodeListN f n s1 with
          | none => none
          | some (xs, s2) => some (x :: xs, s2)

/-- Decode one map: entry count, then that many entries. -/
def decodeHMap (s : List Nat) : Option (HMap × List Nat) :=
  match s with
  | [] => none
  | cnt :: s1 => decodeListN decodeEntry cnt s1

/-- Modelled from the spec: `LipcHasharrayRestore` - reads back the
identity field, the map count and the maps; malformed or trailing input
fails (`CorruptData`-class, here `none`) with no partial object returned. -/
def LipcHasharrayRestore (s : List Nat) : Option LIPCha :=
  match s with
  | ident :: cnt :: s1 =>
      match decodeListN decodeHMap cnt s1 with
      | some (ms, []) => some ⟨ident, ms⟩
      | _ => none
  | _ => none

/-- The hash map built by `lipc-test-hasharray.c`: an integer `0xB00B` under
key `"Int"`, the string `"Value"` under key `"Key"`, and the five-byte blob
`{1, 2, 0, 4, 5}` under key `"Doom"`. -/
def testMap : HMap :=
  [("Int", .hInt (wrap32 0xB00B)),
   ("Key", .hStr "Value"),
   ("Doom", .hBlob [1, 2, 0, 4, 5])]

/-- The one-map hash-array built by `lipc-test-hasharray.c`. -/
def testHa : LIPCha := ⟨0, [testMap]⟩

/-- Modelled from the spec: the kind-specific callbacks of a property
descriptor.  An integer getter takes one invocation producing a value; a
string getter receives the current buffer capacity and either succeeds,
writing a string, or reports `BufferTooSmall` together with the required
capacity in its data out-parameter; setters receive the value.  Callbacks
thread an explicit state of type `σ` (the C side's mutable globals), so an
uninvoked callback leaves the state untouched. -/
inductive PropImpl (σ : Type) where
  | intProp (getter : Option (σ → LIPCcode × Int × σ))
      (setter : Option (σ → Int → LIPCcode × σ))
  | strProp (getter : Option (σ → Nat → LIPCcode × Nat × String × σ))
      (setter : Option (σ → String → LIPCcode × σ))

/-- Modelled from the spec: a registered property - name, kind-specific
callbacks, and the opaque context/data pointer supplied at registration
(modelled as a number, as the tests pass literal addresses). -/
structure PropDesc (σ : Type) where
  name : String
  impl : PropImpl σ
  context : Nat

/-- The per-connection property registry, most recently registered first. -/
abbrev Registry (σ : Type) := List (PropDesc σ)

/-- Find the descriptor registered under a name. -/
def findProp : Registry σ → String → Option (PropDesc σ)
  | [], _ => none
  | d :: rest, n => if d.name = n then some d else findProp rest n

/-- Remove every descriptor registered under a name. -/
def removeProp : Registry σ → String → Registry σ
  | [], _ => []
  | d :: rest, n =>
      if d.name = n then removeProp rest n else d :: removeProp rest n

/-- Modelled from the spec: registration always succeeds and replaces any
prior descriptor for the same name, discarding its old context silently. -/
def registerProp (reg : Registry σ) (d : PropDesc σ) : LIPCcode × Registry σ :=
  (.LIPC_OK, d :: removeProp reg d.name)

/-- Modelled from the spec: `LipcRegisterIntProperty`. -/
def LipcRegisterIntProperty (reg : Registry σ) (name : String)
    (getter : Option (σ → LIPCcode × Int × σ))
    (setter : Option (σ → Int → LIPCcode × σ)) (context : Nat) :
    LIPCcode × Registry σ :=
  registerProp reg ⟨name, .intProp getter setter, context⟩

/-- Modelled from the spec: `LipcRegisterStringProperty`. -/
def LipcRegisterStringProperty (reg : Registry σ) (name : String)
    (getter : Option (σ → Nat → LIPCcode × Nat × String × σ))
    (setter : Option (σ → String → LIPCcode × σ)) (context : Nat) :
    LIPCcode × Registry σ :=
  registerProp reg ⟨name, .strProp getter setter, context⟩

/-- Modelled from the spec: `LipcUnregisterProperty` - `NoSuchProperty` if
the name is absent (registry unchanged); otherwise removes the descriptor
and hands its stored context back through the out-parameter.  Result:
(status, context out-parameter, updated registry). -/
def LipcUnregisterProperty (reg : Registry σ) (name : String) :
    LIPCcode × Option Nat × Registry σ :=
  match findProp reg name with
  | none => (.LIPC_ERROR_NO_SUCH_PROPERTY, none, reg)
  | some d => (.LIPC_OK, some d.context, removeProp reg name)

/-- Whether a descriptor has a getter (the property is readable). -/
def PropImpl.hasGetter : PropImpl σ → Bool
  | .intProp g _ => g.isSome
  | .strProp g _ => g.isSome

/-- Whether a descriptor has a setter (the property is writable). -/
def PropImpl.hasSetter : PropImpl σ → Bool
  | .intProp _ s => s.isSome
  | .strProp _ s => s.isSome

/-- The type label used by the `_properties` listing. -/
def PropImpl.typeLabel : PropImpl σ → String
  | .intProp _ _ => "Int"
  | .strProp _ _ => "Str"

/-- Modelled from the spec: the access mode is derived solely from which
callbacks are present - `r` iff getter only, `w` iff setter only, `rw` iff
both. -/
def PropImpl.accessMode (impl : PropImpl σ) : String :=
  if impl.hasGetter then (if impl.hasSetter then "rw" else "r")
  else (if impl.hasSetter then "w" else "")

/-- One `"<name> <TypeLabel> <mode> "` token of the property listing. -/
def descToken (d : PropDesc σ) : String :=
  d.name ++ " " ++ d.impl.typeLabel ++ " " ++ d.impl.accessMode ++ " "

/-- Modelled from the spec: `LipcGetProperties` (reading the `_properties`
string property) renders every registered descriptor as a space-delimited
`"<name> <TypeLabel> <mode> "` token with a trailing space, most recently
registered first. -/
def LipcGetProperties (reg : Registry σ) : LIPCcode × String :=
  (.LIPC_OK, String.join (reg.map descToken))

/-- Modelled from the spec: `LipcSetIntProperty` - if the descriptor has a
setter, invoke it with the value; if it exists without a setter, fail with
`AccessNotAllowed` invoking nothing; if no such property is registered,
fail with `NoSuchProperty`.  Result: (status, number of callback
invocations, final callback state). -/
def LipcSetIntProperty (reg : Registry σ) (name : String) (v : Int) (s : σ) :
    LIPCcode × Nat × σ :=
  match findProp reg name with
  | none => (.LIPC_ERROR_NO_SUCH_PROPERTY, 0, s)
  | some d =>
      match d.impl with
      | .intProp _ none => (.LIPC_ERROR_ACCESS_NOT_ALLOWED, 0, s)
      | .intProp _ (some f) =>
          match f s v with
          | (code, s1) => (code, 1, s1)
      | .strProp _ _ => (.LIPC_ERROR_INVALID_ARG, 0, s)

/-- Modelled from the spec: `LipcGetStringProperty` with the two-phase
buffer renegotiation - the getter is first invoked with an
implementation-chosen initial capacity; if it reports `BufferTooSmall`,
writing the required capacity into its data out-parameter, the buffer is
reallocated to that capacity and the getter invoked once more; a second
`BufferTooSmall` is treated as an internal error, so `BufferTooSmall`
itself never reaches the caller.  A descriptor without a getter fails with
`AccessNotAllowed` invoking nothing, leaving the value out-parameter
untouched.  Result: (status, value out-parameter when written, list of
buffer capacities passed to the successive getter invocations, final
callback state). -/
def LipcGetStringProperty (reg : Registry σ) (name : String)
    (initSize : Nat) (s : σ) : LIPCcode × Option String × List Nat × σ :=
  match findProp reg name with
  | none => (.LIPC_ERROR_NO_SUCH_PROPERTY, none, [], s)
  | some d =>
      match d.impl with
      | .strProp none _ => (.LIPC_ERROR_ACCESS_NOT_ALLOWED, none, [], s)
      | .strProp (some g) _ =>
          match g s initSize with
          | (code1, data1, v1, s1) =>
              if code1 = .LIPC_ERROR_BUFFER_TOO_SMALL then
                match g s1 data1 with
                | (code2, _, v2, s2) =>
                    if code2 = .LIPC_ERROR_BUFFER_TOO_SMALL then
                      (.LIPC_ERROR_INTERNAL, none, [initSize, data1], s2)
                    else
                      (code2, if code2 = .LIPC_OK then some v2 else none,
                        [initSize, data1], s2)
              else
                (code1, if code1 = .LIPC_OK then some v1 else none,
                  [initSize], s1)
      | .intProp _ _ => (.LIPC_ERROR_INVALID_ARG, none, [], s)

/-- The value left in a caller's out-parameter: the pre-set sentinel when
the call wrote nothing, the written value otherwise. -/
def outParam (sentinel : α) (written : Option α) : α :=
  written.getD sentinel

/-- Copy at most `n` characters of a string, as `strncpy` bounds a copy. -/
def strncpyTake (s : String) (n : Nat) : String := String.mk (s.data.take n)

/-- The mutable globals of `lipc-test-prop.c`: `prop_int`, `prop_str` and
the `prop_s_size` invocation counter. -/
structure TestPropState where
  prop_int : Int
  prop_str : String
  prop_s_size : Nat
  deriving DecidableEq, Repr

/-- The initial globals of `lipc-test-prop.c`: `prop_int = 0xDEAD`,
`prop_str = "Yes! Yes! Yes!"`, `prop_s_size = 0`. -/
def testPropState0 : TestPropState := ⟨0xDEAD, "Yes! Yes! Yes!", 0⟩

/-- The `getter` of `lipc-test-prop.c` for the `"int"` property: it writes
`prop_int` into the value. -/
def testIntGetter (st : TestPropState) : LIPCcode × Int × TestPropState :=
  (.LIPC_OK, st.prop_int, st)

/-- The `setter` of `lipc-test-prop.c` for the `"int"` property: it stores
the value into `prop_int`. -/
def testIntSetter (st : TestPropState) (v : Int) : LIPCcode × TestPropState :=
  (.LIPC_OK, { st with prop_int := v })

/-- The `getter` of `lipc-test-prop.c` for the `"str"` property: on a first
invocation (`prop_s_size` still 0) or a buffer below 500 bytes it bumps
`prop_s_size`, demands 500 bytes through the data out-parameter and reports
`BufferTooSmall`; otherwise it copies `prop_str` into the buffer (bounded
`strncpy`) and succeeds. -/
def testStrGetter (st : TestPropState) (bufsize : Nat) :
    LIPCcode × Nat × String × TestPropState :=
  if st.prop_s_size = 0 ∨ bufsize < 500 then
    (.LIPC_ERROR_BUFFER_TOO_SMALL, 500, "",
      { st with prop_s_size := st.prop_s_size + 1 })
  else
    (.LIPC_OK, bufsize, strncpyTake st.prop_str bufsize, st)

/-- The `setter` of `lipc-test-prop.c` for the `"str"` property: it copies
the value into the 64-byte `prop_str` buffer (bounded `strncpy`, at most 63
characters). -/
def testStrSetter (st : TestPropState) (v : String) :
    LIPCcode × TestPropState :=
  (.LIPC_OK, { st with prop_str := strncpyTake v 63 })

/-- The registry built by the first phase of `lipc-test-prop.c`: `"int"`
with getter and setter (context `0x1111`), then `"str"` with getter and
setter (context `0x2222`). -/
def testPropRegistry : Registry TestPropState :=
  (LipcRegisterStringProperty
    (LipcRegisterIntProperty ([] : Registry TestPropState) "int"
      (some testIntGetter) (some testIntSetter) 0x1111).2
    "str" (some testStrGetter) (some testStrSetter) 0x2222).2

/-- The registry built by the access-mode phase of `lipc-test-prop.c`:
`"int"` with getter only, then `"str"` with setter only. -/
def testModeRegistry : Registry TestPropState :=
  (LipcRegisterStringProperty
    (LipcRegisterIntProperty ([] : Registry TestPropState) "int"
      (some testIntGetter) none 0).2
    "str" none (some testStrSetter) 0).2

/-- Modelled from the spec: an event parameter, an integer or a string. -/
inductive EParam where
  | eInt (v : Int)
  | eStr (s : String)
  deriving DecidableEq, Repr

/-- Modelled from the spec: an event (`LIPCevent` is an opaque `typedef
void` in the header) - name, source service, the ordered parameter list and
the read cursor marking the next parameter, starting at 0. -/
structure LIPCevent where
  name : String
  source : String
  params : List EParam
  cursor : Nat
  deriving DecidableEq, Repr

/-- Modelled from the spec: `LipcGetIntParam` reads the parameter at the
cursor and advances it; it fails with `NoSuchParam` if the cursor is at or
past the end or the parameter there is of the other kind.  Result: (status,
value out-parameter when written, updated event). -/
def LipcGetIntParam (e : LIPCevent) : LIPCcode × Option Int × LIPCevent :=
  match e.params[e.cursor]? with
  | some (.eInt v) => (.LIPC_OK, some v, { e with cursor := e.cursor + 1 })
  | _ => (.LIPC_ERROR_NO_SUCH_PARAM, none, e)

/-- Modelled from the spec: `LipcGetStringParam`, the string counterpart of
`LipcGetIntParam`. -/
def LipcGetStringParam (e : LIPCevent) :
    LIPCcode × Option String × LIPCevent :=
  match e.params[e.cursor]? with
  | some (.eStr s) => (.LIPC_OK, some s, { e with cursor := e.cursor + 1 })
  | _ => (.LIPC_ERROR_NO_SUCH_PARAM, none, e)

/-- Modelled from the spec: `LipcAddIntParam` appends to the ordered
parameter list. -/
def LipcAddIntParam (e : LIPCevent) (v : Int) : LIPCcode × LIPCevent :=
  (.LIPC_OK, { e with params := e.params ++ [.eInt v] })

/-- Modelled from the spec: `LipcAddStringParam` appends to the ordered
parameter list. -/
def LipcAddStringParam (e : LIPCevent) (s : String) : LIPCcode × LIPCevent :=
  (.LIPC_OK, { e with params := e.params ++ [.eStr s] })

/-- Modelled from the spec: `LipcRewindParams` resets the cursor to 0
without clearing the parameters. -/
def LipcRewindParams (e : LIPCevent) : LIPCcode × LIPCevent :=
  (.LIPC_OK, { e with cursor := 0 })

/-- Modelled from the spec: build the parameter list from a printf-like
format string restricted to `%d` and `%s` specifiers (a `.0` precision
modifier is accepted syntactically with no semantic effect), consuming the
variadic arguments left to right; an empty format yields no parameters. -/
def parseEventFormat : List Char → List EParam → Option (List EParam)
  | [], _ => some []
  | '%' :: 'd' :: rest, .eInt v :: args =>
      match parseEventFormat rest args with
      | none => none
      | some ps => some (.eInt v :: ps)
  | '%' :: 's' :: rest, .eStr s :: args =>
      match parseEventFormat rest args with
      | none => none
      | some ps => some (.eStr s :: ps)
  | '%' :: '.' :: '0' :: 'd' :: rest, .eInt v :: args =>
      match parseEventFormat rest args with
      | none => none
      | some ps => some (.eInt v :: ps)
  | '%' :: '.' :: '0' :: 's' :: rest, .eStr s :: args =>
      match parseEventFormat rest args with
      | none => none
      | some ps => some (.eStr s :: ps)
  | _, _ => none

/-- Modelled from the spec: a subscription - service, optional event-name
filter (none means all events) and the opaque context passed at
subscription time. -/
structure LIPCSubscription where
  service : String
  eventName : Option String
  context : Nat
  deriving DecidableEq, Repr

/-- Modelled from the spec: a subscription matches an event when its
service equals the event's source and its filter is absent or equals the
event's name. -/
def subMatches (sub : LIPCSubscription) (ev : LIPCevent) : Bool :=
  sub.service == ev.source &&
    (sub.eventName == none || sub.eventName == some ev.name)

/-- Modelled from the spec: dispatch delivers, in subscription order, to
every matching subscription its own context and a fresh read view of the
event with the cursor at 0. -/
def dispatchEvent (subs : List LIPCSubscription) (ev : LIPCevent) :
    List (Nat × LIPCevent) :=
  (subs.filter (fun sub => subMatches sub ev)).map
    (fun sub => (sub.context, { ev with cursor := 0 }))

/-- Modelled from the spec: `LipcCreateAndSendEventWithParameters` builds
an event whose source is the sender's registered identity and whose
parameters come from the format string, then delivers it to the matching
subscribers.  Result: (status, deliveries as context/event pairs). -/
def LipcCreateAndSendEventWithParameters (lipc : LIPC)
    (subs : List LIPCSubscription) (name format : String)
    (args : List EParam) : LIPCcode × List (Nat × LIPCevent) :=
  match lipc.serviceName with
  | none => (.LIPC_ERROR_INVALID_HANDLE, [])
  | some src =>
      match parseEventFormat format.data args with
      | none => (.LIPC_ERROR_INVALID_ARG, [])
      | some ps => (.LIPC_OK, dispatchEvent subs ⟨name, src, ps, 0⟩)

/-- The subscription made by `lipc-test-event.c`:
`LipcSubscribeExt(lipc, "com.example", "event", event, 0xABCD)`. -/
def testSubscription : LIPCSubscription := ⟨"com.example", some "event", 0xABCD⟩

/-- The event delivered in `lipc-test-event.c`: name `"event"` from source
`"com.example"` with parameters `0xDEAD`, `"OK"`, `0xE220` and cursor 0. -/
def testEvent : LIPCevent :=
  ⟨"event", "com.example", [.eInt 0xDEAD, .eStr "OK", .eInt 0xE220], 0⟩

end Openlipc

namespace Openlipc

theorem readN_length_append (xs rest : List Nat) :
    readN xs.length (xs ++ rest) = some (xs, rest) := by
  induction xs with
  | nil => rfl
  | cons x xs ih => simp [readN, ih]

theorem string_mk_data (s : String) : String.mk s.data = s := by
  cases s
  rfl

theorem map_ofNat_comp_toNat (l : List Char) :
    l.map (Char.ofNat ∘ Char.toNat) = l := by
  induction l with
  | nil => rfl
  | cons c cs ih => simp [ih, Char.ofNat_toNat]

theorem decodeText_encodeText (s : String) (r : List Nat) :
    decodeText (encodeText s ++ r) = some (s, r) := by
  have hlen : s.length = (s.data.map Char.toNat).length := by
    rw [List.length_map]
    rfl
  simp only [encodeText, List.cons_append, decodeText, List.append_assoc]
  rw [hlen, readN_length_append]
  simp only [Option.some.injEq, Prod.mk.injEq, List.map_map, and_true]
  rw [map_ofNat_comp_toNat]

theorem natsToBytes_map_val (b : List Byte) :
    natsToBytes (b.map Fin.val) = some b := by
  induction b with
  | nil => rfl
  | cons x xs ih => simp [natsToBytes, x.isLt, ih]

theorem decodeHValue_encodeHValue (v : HValue) (r : List Nat) :
    decodeHValue (encodeHValue v ++ r) = some (v, r) := by
  cases v with
  | hInt w => simp [encodeHValue, decodeHValue, w.isLt]
  | hStr s =>
      simp [encodeHValue, decodeHValue, decodeText_encodeText]
  | hBlob b =>
      have hlen : b.length = (b.map Fin.val).length := by simp
      simp only [encodeHValue, List.cons_append, decodeHValue,
        List.append_assoc]
      rw [hlen, readN_length_append]
      simp [natsToBytes_map_val]

theorem decodeEntry_encodeEntry (e : String × HValue) (r : List Nat) :
    decodeEntry (encodeEntry e ++ r) = some (e, r) := by
  simp only [encodeEntry, List.append_assoc, decodeEntry,
    decodeText_encodeText, decodeHValue_encodeHValue]

theorem decodeListN_encodeList {α : Type} (f : List Nat → Option (α × List Nat))
    (g : α → List Nat) (hfg : ∀ x r, f (g x ++ r) = some (x, r))
    (xs : List α) (r : List Nat) :
    decodeListN f xs.length (encodeList g xs ++ r) = some (xs, r) := by
  induction xs with
  | nil => rfl
  | cons x xs ih =>
      simp only [encodeList, List.length_cons, List.append_assoc,
        decodeListN, hfg, ih]

theorem decodeHMap_encodeHMap (m : HMap) (r : List Nat) :
    decodeHMap (encodeHMap m ++ r) = some (m, r) := by
  simp only [encodeHMap, List.cons_append, decodeHMap]
  exact decodeListN_encodeList decodeEntry encodeEntry
    decodeEntry_encodeEntry m r

theorem restore_save (ha : LIPCha) :
    LipcHasharrayRestore (LipcHasharraySave ha) = some ha := by
  have h := decodeListN_encodeList decodeHMap encodeHMap
    decodeHMap_encodeHMap ha.maps []
  simp only [List.append_nil] at h
  simp [LipcHasharraySave, LipcHasharrayRestore, h]

/-- C3: serializing any HashArray with `Save` and deserializing with
`Restore` yields an array observationally identical to the original:
`GetHashCount`, `Keys`, `CheckKey`, `GetInt`, `GetString` and `GetBlob`
agree for every (index, key), for all three value kinds including
zero-length blobs (the restored array is in fact equal to the original). -/
theorem c3_save_restore_roundtrip :
    ∀ ha : LIPCha, ∃ ha2 : LIPCha,
      LipcHasharrayRestore (LipcHasharraySave ha) = some ha2 ∧
      LipcHasharrayGetHashCount ha2 = LipcHasharrayGetHashCount ha ∧
      (∀ index count, LipcHasharrayKeys ha2 index count =
        LipcHasharrayKeys ha index count) ∧
      (∀ index key, LipcHasharrayCheckKey ha2 index key =
        LipcHasharrayCheckKey ha index key) ∧
      (∀ index key, LipcHasharrayGetInt ha2 index key =
        LipcHasharrayGetInt ha index key) ∧
      (∀ index key, LipcHasharrayGetString ha2 index key =
        LipcHasharrayGetString ha index key) ∧
      (∀ index key, LipcHasharrayGetBlob ha2 index key =
        LipcHasharrayGetBlob ha index key) := by
  intro ha
  exact ⟨ha, restore_save ha, rfl, fun _ _ => rfl, fun _ _ => rfl,
    fun _ _ => rfl, fun _ _ => rfl, fun _ _ => rfl⟩

/-- C8: `AddHash` appends one empty hash map, returns Ok, and stores the
array length before the append as the new map's index; afterwards
`GetHashCount` is one greater; a fresh array has count 0 and its first
`AddHash` yields index 0. -/
theorem c8_addhash_appends :
    (∀ ha : LIPCha,
      (LipcHasharrayAddHash ha).1 = LIPCcode.LIPC_OK ∧
      (LipcHasharrayAddHash ha).2.1 = LipcHasharrayGetHashCount ha ∧
      LipcHasharrayGetHashCount (LipcHasharrayAddHash ha).2.2 =
        LipcHasharrayGetHashCount ha + 1 ∧
      (LipcHasharrayAddHash ha).2.2.maps[(LipcHasharrayAddHash ha).2.1]? =
        some ([] : HMap)) ∧
    LipcHasharrayGetHashCount LipcHasharrayNew = 0 ∧
    (LipcHasharrayAddHash LipcHasharrayNew).2.1 = 0 := by
  refine ⟨fun ha => ⟨rfl, rfl, ?_, ?_⟩, rfl, rfl⟩
  · simp [LipcHasharrayAddHash, LipcHasharrayGetHashCount]
  · exact List.getElem?_concat_length ha.maps []

/-- C7: for a valid index, `Keys` called with count 0 returns Ok and stores
the number of keys in the map without copying any key; a subsequent call
with a buffer sized to exactly that returned count fills it with all keys,
never needing a larger buffer. -/
theorem c7_keys_protocol (ha : LIPCha) (index : Nat) (m : HMap)
    (h : ha.maps[index]? = some m) :
    LipcHasharrayKeys ha index 0 = (LIPCcode.LIPC_OK, m.length, []) ∧
    LipcHasharrayKeys ha index ((LipcHasharrayKeys ha index 0).2.1) =
      (LIPCcode.LIPC_OK, m.length, m.map Prod.fst) ∧
    (m.map Prod.fst).length = m.length := by
  have hfull : LipcHasharrayKeys ha index 0 =
      (LIPCcode.LIPC_OK, m.length, []) := by
    simp [LipcHasharrayKeys, h]
  refine ⟨hfull, ?_, List.length_map m Prod.fst⟩
  rw [hfull]
  simp only [LipcHasharrayKeys, h]
  rw [← List.length_map m Prod.fst, List.take_length]

theorem c7_keys_protocol_witness :
    testHa.maps[0]? = some testMap ∧
    LipcHasharrayKeys testHa 0 0 = (LIPCcode.LIPC_OK, 3, []) ∧
    LipcHasharrayKeys testHa 0 ((LipcHasharrayKeys testHa 0 0).2.1) =
      (LIPCcode.LIPC_OK, 3, ["Int", "Key", "Doom"]) :=
  ⟨rfl, (c7_keys_protocol testHa 0 testMap rfl).1,
    (c7_keys_protocol testHa 0 testMap rfl).2.1⟩

/-- C6: `CheckKey` reports a text value's size as content length plus one
(the trailing terminator slot), an integer value's size as the fixed
`sizeof(int)` width 4, and a blob's size as its explicit byte length; it
returns `NoSuchParam` when the key is absent at a valid index and the
`NoSuchSource`-class error when the index is out of range. -/
theorem c6_checkkey_sizes (ha : LIPCha) (index : Nat) (key : String) :
    (∀ m v, ha.maps[index]? = some m → hmapFind m key = some v →
      LipcHasharrayCheckKey ha index key =
        (LIPCcode.LIPC_OK, some (typeOfHValue v, sizeOfHValue v))) ∧
    (∀ m, ha.maps[index]? = some m → hmapFind m key = none →
      LipcHasharrayCheckKey ha index key =
        (LIPCcode.LIPC_ERROR_NO_SUCH_PARAM, none)) ∧
    (ha.maps[index]? = none →
      LipcHasharrayCheckKey ha index key =
        (LIPCcode.LIPC_ERROR_NO_SUCH_SOURCE, none)) ∧
    (∀ s, sizeOfHValue (.hStr s) = s.length + 1) ∧
    (∀ w, sizeOfHValue (.hInt w) = 4) ∧
    (∀ b, sizeOfHValue (.hBlob b) = b.length) := by
  refine ⟨?_, ?_, ?_, fun _ => rfl, fun _ => rfl, fun _ => rfl⟩
  · intro m v h1 h2
    simp [LipcHasharrayCheckKey, h1, h2]
  · intro m h1 h2
    simp [LipcHasharrayCheckKey, h1, h2]
  · intro h1
    simp [LipcHasharrayCheckKey, h1]

theorem c6_checkkey_sizes_witness :
    LipcHasharrayCheckKey testHa 0 "Int" =
      (LIPCcode.LIPC_OK, some (.LIPC_HASHARRAY_INT, 4)) ∧
    LipcHasharrayCheckKey testHa 0 "Key" =
      (LIPCcode.LIPC_OK, some (.LIPC_HASHARRAY_STRING, 6)) ∧
    LipcHasharrayCheckKey testHa 0 "Doom" =
      (LIPCcode.LIPC_OK, some (.LIPC_HASHARRAY_BLOB, 5)) ∧
    LipcHasharrayCheckKey testHa 0 "xxx" =
      (LIPCcode.LIPC_ERROR_NO_SUCH_PARAM, none) ∧
    LipcHasharrayCheckKey testHa 1 "Int" =
      (LIPCcode.LIPC_ERROR_NO_SUCH_SOURCE, none) :=
  ⟨(c6_checkkey_sizes testHa 0 "Int").1 testMap (.hInt (wrap32 0xB00B))
      rfl (by decide),
    (c6_checkkey_sizes testHa 0 "Key").1 testMap (.hStr "Value")
      rfl (by decide),
    (c6_checkkey_sizes testHa 0 "Doom").1 testMap (.hBlob [1, 2, 0, 4, 5])
      rfl (by decide),
    (c6_checkkey_sizes testHa 0 "xxx").2.1 testMap rfl (by decide),
    (c6_checkkey_sizes testHa 1 "Int").2.2.1 rfl⟩

theorem findProp_removeProp {σ : Type} (reg : Registry σ) (name : String) :
    findProp (removeProp reg name) name = none := by
  induction reg with
  | nil => rfl
  | cons d rest ih =>
      by_cases h : d.name = name
      · simp [removeProp, h, ih]
      · simp [removeProp, findProp, h, ih]

/-- C9: unregistering a registered property removes its descriptor, returns
Ok and hands back exactly the context stored at registration; unregistering
an absent name returns `NoSuchProperty` and leaves the registry
unchanged. -/
theorem c9_unregister_context {σ : Type} (reg : Registry σ) (name : String) :
    (∀ d, findProp reg name = some d →
      LipcUnregisterProperty reg name =
        (LIPCcode.LIPC_OK, some d.context, removeProp reg name) ∧
      findProp (removeProp reg name) name = none) ∧
    (findProp reg name = none →
      LipcUnregisterProperty reg name =
        (LIPCcode.LIPC_ERROR_NO_SUCH_PROPERTY, none, reg)) := by
  constructor
  · intro d h
    exact ⟨by simp [LipcUnregisterProperty, h], findProp_removeProp reg name⟩
  · intro h
    simp [LipcUnregisterProperty, h]

theorem c9_unregister_context_witness :
    findProp (LipcRegisterStringProperty ([] : Registry TestPropState) "str"
        (some testStrGetter) (some testStrSetter) 0x2222).2 "str" =
      some ⟨"str", .strProp (some testStrGetter) (some testStrSetter),
        0x2222⟩ ∧
    LipcUnregisterProperty
        (LipcRegisterStringProperty ([] : Registry TestPropState) "str"
          (some testStrGetter) (some testStrSetter) 0x2222).2 "str" =
      (LIPCcode.LIPC_OK, some 0x2222, []) ∧
    findProp ([] : Registry TestPropState) "str" = none ∧
    LipcUnregisterProperty ([] : Registry TestPropState) "str" =
      (LIPCcode.LIPC_ERROR_NO_SUCH_PROPERTY, none, []) :=
  ⟨rfl,
    ((c9_unregister_context
        (LipcRegisterStringProperty ([] : Registry TestPropState) "str"
          (some testStrGetter) (some testStrSetter) 0x2222).2 "str").1
      ⟨"str", .strProp (some testStrGetter) (some testStrSetter), 0x2222⟩
      rfl).1,
    rfl,
    (c9_unregister_context ([] : Registry TestPropState) "str").2 rfl⟩

/-- C2: for a registry holding exactly `"int"` registered with only a getter
and `"str"` registered with only a setter, the property listing returns Ok
and exactly `"str Str w int Int r "`; the access mode of any descriptor is
derived solely from which callbacks are present - `r` iff getter only, `w`
iff setter only, `rw` iff both. -/
theorem c2_list_properties {σ : Type} :
    (∀ (g : σ → LIPCcode × Int × σ) (f : σ → String → LIPCcode × σ),
      LipcGetProperties
        (LipcRegisterStringProperty
          (LipcRegisterIntProperty ([] : Registry σ) "int"
            (some g) none 0).2
          "str" none (some f) 0).2 =
      (LIPCcode.LIPC_OK, "str Str w int Int r ")) ∧
    (∀ impl : PropImpl σ,
      (impl.accessMode = "r" ↔ impl.hasGetter ∧ ¬impl.hasSetter) ∧
      (impl.accessMode = "w" ↔ ¬impl.hasGetter ∧ impl.hasSetter) ∧
      (impl.accessMode = "rw" ↔ impl.hasGetter ∧ impl.hasSetter)) := by
  constructor
  · intro g f
    rfl
  · intro impl
    cases impl with
    | intProp og os =>
        cases og <;> cases os <;>
          simp [PropImpl.accessMode, PropImpl.hasGetter, PropImpl.hasSetter]
    | strProp og os =>
        cases og <;> cases os <;>
          simp [PropImpl.accessMode, PropImpl.hasGetter, PropImpl.hasSetter]

/-- C4: a Set request on a property registered with a getter but no setter
returns `AccessNotAllowed` without invoking any callback (zero invocations,
callback state untouched); a Get request on a property registered with a
setter but no getter returns `AccessNotAllowed`, invokes nothing and leaves
the caller's output argument unmodified (a pre-set sentinel survives). -/
theorem c4_access_enforcement {σ : Type} (reg : Registry σ) (s : σ) :
    (∀ (name : String) (d : PropDesc σ)
        (g : Option (σ → LIPCcode × Int × σ)) (v : Int),
      findProp reg name = some d → d.impl = .intProp g none →
      LipcSetIntProperty reg name v s =
        (LIPCcode.LIPC_ERROR_ACCESS_NOT_ALLOWED, 0, s)) ∧
    (∀ (name : String) (d : PropDesc σ)
        (f : Option (σ → String → LIPCcode × σ))
        (init : Nat) (sentinel : String),
      findProp reg name = some d → d.impl = .strProp none f →
      LipcGetStringProperty reg name init s =
        (LIPCcode.LIPC_ERROR_ACCESS_NOT_ALLOWED, none, [], s) ∧
      outParam sentinel (LipcGetStringProperty reg name init s).2.1 =
        sentinel) := by
  constructor
  · intro name d g v hfind himpl
    simp [LipcSetIntProperty, hfind, himpl]
  · intro name d f init sentinel hfind himpl
    have h : LipcGetStringProperty reg name init s =
        (LIPCcode.LIPC_ERROR_ACCESS_NOT_ALLOWED, none, [], s) := by
      simp [LipcGetStringProperty, hfind, himpl]
    exact ⟨h, by rw [h]; rfl⟩

theorem c4_access_enforcement_witness :
    findProp testModeRegistry "int" =
      some ⟨"int", .intProp (some testIntGetter) none, 0⟩ ∧
    findProp testModeRegistry "str" =
      some ⟨"str", .strProp none (some testStrSetter), 0⟩ ∧
    LipcSetIntProperty testModeRegistry "int" 0x0C0C testPropState0 =
      (LIPCcode.LIPC_ERROR_ACCESS_NOT_ALLOWED, 0, testPropState0) ∧
    LipcGetStringProperty testModeRegistry "str" 64 testPropState0 =
      (LIPCcode.LIPC_ERROR_ACCESS_NOT_ALLOWED, none, [], testPropState0) ∧
    outParam "0xDEAD-sentinel"
        (LipcGetStringProperty testModeRegistry "str" 64
          testPropState0).2.1 =
      "0xDEAD-sentinel" :=
  ⟨rfl, rfl,
    (c4_access_enforcement testModeRegistry testPropState0).1 "int"
      ⟨"int", .intProp (some testIntGetter) none, 0⟩
      (some testIntGetter) 0x0C0C rfl rfl,
    ((c4_access_enforcement testModeRegistry testPropState0).2 "str"
      ⟨"str", .strProp none (some testStrSetter), 0⟩
      (some testStrSetter) 64 "0xDEAD-sentinel" rfl rfl).1,
    ((c4_access_enforcement testModeRegistry testPropState0).2 "str"
      ⟨"str", .strProp none (some testStrSetter), 0⟩
      (some testStrSetter) 64 "0xDEAD-sentinel" rfl rfl).2⟩

/-- C1: for every string property whose registered getter reports
`BufferTooSmall` on its first invocation, writing the required capacity 500
into the data out-parameter, and succeeds when re-invoked with that
capacity, `LipcGetStringProperty` invokes the getter exactly twice - the
second time with a buffer of the requested capacity - and returns Ok
together with exactly the string the getter wrote into the second buffer;
`BufferTooSmall` itself is never returned to the caller. -/
theorem c1_buffer_renegotiation {σ : Type} (reg : Registry σ) (name : String)
    (d : PropDesc σ) (g : σ → Nat → LIPCcode × Nat × String × σ)
    (os : Option (σ → String → LIPCcode × σ))
    (init : Nat) (s0 s1 s2 : σ) (junk w : String) (d2 : Nat)
    (hfind : findProp reg name = some d)
    (himpl : d.impl = .strProp (some g) os)
    (h1 : g s0 init = (.LIPC_ERROR_BUFFER_TOO_SMALL, 500, junk, s1))
    (h2 : g s1 500 = (.LIPC_OK, d2, w, s2)) :
    LipcGetStringProperty reg name init s0 =
      (LIPCcode.LIPC_OK, some w, [init, 500], s2) ∧
    [init, 500].length ≤ 2 ∧
    (LipcGetStringProperty reg name init s0).1 ≠
      LIPCcode.LIPC_ERROR_BUFFER_TOO_SMALL := by
  have h : LipcGetStringProperty reg name init s0 =
      (LIPCcode.LIPC_OK, some w, [init, 500], s2) := by
    simp [LipcGetStringProperty, hfind, himpl, h1, h2]
  exact ⟨h, by simp, by rw [h]; simp⟩

theorem c1_buffer_renegotiation_witness :
    findProp testPropRegistry "str" =
      some ⟨"str", .strProp (some testStrGetter) (some testStrSetter),
        0x2222⟩ ∧
    testStrGetter testPropState0 64 =
      (.LIPC_ERROR_BUFFER_TOO_SMALL, 500, "",
        ⟨0xDEAD, "Yes! Yes! Yes!", 1⟩) ∧
    testStrGetter ⟨0xDEAD, "Yes! Yes! Yes!", 1⟩ 500 =
      (.LIPC_OK, 500, "Yes! Yes! Yes!", ⟨0xDEAD, "Yes! Yes! Yes!", 1⟩) ∧
    LipcGetStringProperty testPropRegistry "str" 64 testPropState0 =
      (LIPCcode.LIPC_OK, some "Yes! Yes! Yes!", [64, 500],
        ⟨0xDEAD, "Yes! Yes! Yes!", 1⟩) :=
  ⟨rfl, rfl, rfl,
    (c1_buffer_renegotiation testPropRegistry "str"
      ⟨"str", .strProp (some testStrGetter) (some testStrSetter), 0x2222⟩
      testStrGetter (some testStrSetter) 64 testPropState0
      ⟨0xDEAD, "Yes! Yes! Yes!", 1⟩ ⟨0xDEAD, "Yes! Yes! Yes!", 1⟩
      "" "Yes! Yes! Yes!" 500 rfl rfl rfl rfl).1⟩

/-- C5: emitting an event with format `"%d%s%d"` and arguments
`(0xDEAD, "OK", 0xE220)` delivers to each matching subscriber an event with
cursor 0 whose sequential typed reads yield `0xDEAD`, `"OK"`, `0xE220` in
that order; `RewindParams` resets the cursor to 0 with the parameter list
unchanged, so the next `GetIntParam` yields `0xDEAD` again. -/
theorem c5_event_parameters :
    (LipcCreateAndSendEventWithParameters (LipcOpen "com.example")
        [testSubscription] "event" "%d%s%d"
        [.eInt 0xDEAD, .eStr "OK", .eInt 0xE220]).1 = LIPCcode.LIPC_OK ∧
    (LipcCreateAndSendEventWithParameters (LipcOpen "com.example")
        [testSubscription] "event" "%d%s%d"
        [.eInt 0xDEAD, .eStr "OK", .eInt 0xE220]).2 =
      [(0xABCD, testEvent)] ∧
    testEvent.cursor = 0 ∧
    (LipcGetIntParam testEvent).1 = LIPCcode.LIPC_OK ∧
    (LipcGetIntParam testEvent).2.1 = some 0xDEAD ∧
    (LipcGetStringParam (LipcGetIntParam testEvent).2.2).2.1 = some "OK" ∧
    (LipcGetIntParam
        (LipcGetStringParam (LipcGetIntParam testEvent).2.2).2.2).2.1 =
      some 0xE220 ∧
    (LipcRewindParams
        (LipcGetIntParam
          (LipcGetStringParam
            (LipcGetIntParam testEvent).2.2).2.2).2.2).2.cursor = 0 ∧
    (LipcRewindParams
        (LipcGetIntParam
          (LipcGetStringParam
            (LipcGetIntParam testEvent).2.2).2.2).2.2).2.params =
      testEvent.params ∧
    (LipcGetIntParam
        (LipcRewindParams
          (LipcGetIntParam
            (LipcGetStringParam
              (LipcGetIntParam testEvent).2.2).2.2).2.2).2).2.1 =
      some 0xDEAD ∧
    (∀ e : LIPCevent,
      (LipcRewindParams e).2.cursor = 0 ∧
      (LipcRewindParams e).2.params = e.params) :=
  ⟨rfl, rfl, rfl, rfl, rfl, rfl, rfl, rfl, rfl, rfl,
    fun _ => ⟨rfl, rfl⟩⟩

/-- C10: `LipcGetServiceName` on a handle from `LipcOpenNoName` returns NULL;
on a handle from `LipcOpen` or `LipcOpenEx` with service name `s` it returns
exactly `s`; and a successful `LipcOpenEx` stores `LIPC_OK` into its code
out-parameter. -/
theorem c10_service_name :
    LipcGetServiceName LipcOpenNoName = none ∧
    (∀ s : String, LipcGetServiceName (LipcOpen s) = some s) ∧
    (∀ s : String,
      (LipcOpenEx s).2 = LIPCcode.LIPC_OK ∧
      LipcGetServiceName (LipcOpenEx s).1 = some s) :=
  ⟨rfl, fun _ => rfl, fun _ => ⟨rfl, rfl⟩⟩

end Openlipc
